import Mathlib

/-
Verification of the SSE streaming chat client (`src/App.tsx` / the unnamed
main module): the `handleSend` ask flow, its inner Server-Sent-Events parse
loop, the streak bookkeeping, and the message-list updates.

Strings are modelled as lists of characters (`JStr`); the JavaScript string
operations used by the source (`trim`, `split`, `startsWith`,
`replace(/^data:\s?/, '')`, `parseInt`, truthiness of strings/numbers) are
embedded explicitly below.
-/

/-- A JavaScript string, modelled as its sequence of characters. -/
abbrev JStr := List Char

/-- Characters matched by the JavaScript `\s` regex class, which is also the
set trimmed by `String.prototype.trim`. -/
def isJsWhitespace (c : Char) : Bool :=
  c = ' ' || c = '\t' || c = '\n' || c = '\r' ||
  c = Char.ofNat 11 || c = Char.ofNat 12 ||
  c = Char.ofNat 0xa0 || c = Char.ofNat 0x1680 ||
  (0x2000 ≤ c.toNat && c.toNat ≤ 0x200a) ||
  c = Char.ofNat 0x2028 || c = Char.ofNat 0x2029 ||
  c = Char.ofNat 0x202f || c = Char.ofNat 0x205f ||
  c = Char.ofNat 0x3000 || c = Char.ofNat 0xfeff

/-- JavaScript `String.prototype.trim`: drop `\s`-class characters from both
ends. -/
def jsTrim (s : JStr) : JStr :=
  ((s.dropWhile isJsWhitespace).reverse.dropWhile isJsWhitespace).reverse

/-- JavaScript `String.prototype.startsWith pat`: `beginsWith pat s`. -/
def beginsWith : JStr → JStr → Bool
  | [], _ => true
  | _ :: _, [] => false
  | p :: ps, c :: cs => p = c && beginsWith ps cs

/-- JavaScript `s.split('\n')`: split a string at every newline character;
the empty string yields one empty piece. -/
def splitLines : JStr → List JStr
  | [] => [[]]
  | c :: rest =>
    if c = '\n' then [] :: splitLines rest
    else
      match splitLines rest with
      | [] => [[c]]
      | l :: ls => (c :: l) :: ls

/-- Drop at most one leading whitespace character: the `\s?` part of the
`/^event:\s?/` and `/^data:\s?/` regexes in the source. -/
def dropOneWs : JStr → JStr
  | [] => []
  | c :: rest => if isJsWhitespace c then rest else c :: rest

/-- The `event:` line label. -/
def eventPfx : JStr := ("event:").toList

/-- The `data:` line label. -/
def dataPfx : JStr := ("data:").toList

/-- The reserved event type that carries answer deltas. -/
def chunkEvt : JStr := ("chunk").toList

/-- Value recorded for an `event:` line:
`line.replace(/^event:\s?/, '').trim()` (App.tsx line 124). -/
def stripEventValue (line : JStr) : JStr :=
  jsTrim (dropOneWs (line.drop eventPfx.length))

/-- Value recorded for a `data:` line:
`line.replace(/^data:\s?/, '')` — note: no `.trim()` (App.tsx line 126). -/
def stripDataValue (line : JStr) : JStr :=
  dropOneWs (line.drop dataPfx.length)

/-- One step of the `for (const line of lines)` loop of the frame parser
(App.tsx lines 122-128). The state is `(eventType, dataLines)`. -/
def parseLine (st : Option JStr × List JStr) (line : JStr) :
    Option JStr × List JStr :=
  if beginsWith eventPfx line then (some (stripEventValue line), st.2)
  else if beginsWith dataPfx line then (st.1, st.2 ++ [stripDataValue line])
  else st

/-- Parse one raw SSE frame into its event type (last `event:` line wins,
`null` when absent) and its ordered `data:` line values (App.tsx lines
119-128). -/
def parseFrame (frame : JStr) : Option JStr × List JStr :=
  (splitLines frame).foldl parseLine (none, [])

/-- The newline character, named to keep frame joins readable. -/
def chr10 : Char := '\n'

/-- The delta a frame forwards to the transcript, if any:
`if (dataLines.length && (eventType === null || eventType === 'chunk'))`
then `dataLines.join('\n')` (App.tsx lines 129-130). -/
def frameDelta (frame : JStr) : Option JStr :=
  let p := parseFrame frame
  if p.2 ≠ [] ∧ (p.1 = none ∨ p.1 = some chunkEvt) then
    some (List.intercalate [chr10] p.2)
  else none

/-- The accumulated-buffer frame splitter: repeatedly cut the text before the
first `"\n\n"` as a complete frame, keeping the trailing partial frame
(`while ((idx = buffer.indexOf('\n\n')) !== -1)` with
`chunk = buffer.slice(0, idx); buffer = buffer.slice(idx + 2)`, App.tsx
lines 115-117), transcribed as a left-to-right scan. Returns the list of
complete frames and the leftover buffer. -/
def extractFrames : JStr → List JStr × JStr
  | [] => ([], [])
  | [c] => ([], [c])
  | c1 :: c2 :: rest =>
    if c1 = '\n' && c2 = '\n' then
      let p := extractFrames rest
      ([] :: p.1, p.2)
    else
      let p := extractFrames (c2 :: rest)
      match p.1 with
      | [] => ([], c1 :: p.2)
      | f :: fs => ((c1 :: f) :: fs, p.2)

/-- A catalog book (`type Book`, App.tsx line 43): required identity and
display fields plus the optional presentation fields. -/
structure Book where
  id : JStr
  title : JStr
  author : JStr
  theme : Option JStr := none
  color : Option JStr := none
  cover : Option JStr := none
  tagline : Option JStr := none
deriving DecidableEq, Repr

/-- A chat message role (`"user" | "book"`). -/
inductive Role where
  | user
  | book
deriving DecidableEq, Repr

/-- A transcript message (`type ChatMsg`, App.tsx line 49). -/
structure ChatMsg where
  id : JStr
  role : Role
  content : JStr
  ts : Int
deriving DecidableEq, Repr

/-- The delta application `setMessages((m) => m.map((msg) => msg.id ===
bookMsgId ? { ...msg, content: (msg.content + delta) } : msg))` (App.tsx
line 131). -/
def applyDelta (ms : List ChatMsg) (mid : JStr) (delta : JStr) :
    List ChatMsg :=
  ms.map (fun msg =>
    if msg.id = mid then { msg with content := msg.content ++ delta } else msg)

/-- Process one extracted frame against the transcript: apply its delta to
the open book message when it forwards one, otherwise leave the transcript
alone (App.tsx lines 129-132). -/
def applyFrame (mid : JStr) (ms : List ChatMsg) (frame : JStr) :
    List ChatMsg :=
  match frameDelta frame with
  | some d => applyDelta ms mid d
  | none => ms

/-- One pass of the inner `while` loop over the current buffer: extract every
complete frame and apply each frame's delta in order, returning the updated
transcript and the leftover buffer (App.tsx lines 114-133). -/
def processBuffer (mid : JStr) (ms : List ChatMsg) (buf : JStr) :
    List ChatMsg × JStr :=
  let p := extractFrames buf
  (p.1.foldl (applyFrame mid) ms, p.2)

/-- The outer read loop (App.tsx lines 110-134): each delivered text chunk is
appended to the carried buffer and the inner loop runs; when the stream
ends, the trailing partial frame left in the buffer is discarded. -/
def runStream (mid : JStr) (init : List ChatMsg) (chunks : List JStr) :
    List ChatMsg :=
  (chunks.foldl (fun st c => processBuffer mid st.1 (st.2 ++ c)) (init, [])).1

/-- The same read loop, projected onto the frames it extracts: used to state
chunk-boundary independence of the parse loop. Returns all extracted frames
and the final leftover buffer. -/
def chunkFrames (chunks : List JStr) : List JStr × JStr :=
  chunks.foldl
    (fun st c =>
      let p := extractFrames (st.2 ++ c)
      (st.1 ++ p.1, p.2))
    ([], [])

/-- The sequence of deltas the parse loop forwards for a given chunked
stream. -/
def chunkDeltas (chunks : List JStr) : List JStr :=
  (chunkFrames chunks).1.filterMap frameDelta

/-- The persisted key-value store (`localStorage`): `getItem` returns `null`
or a string, modelled as a total lookup function. -/
def Store := JStr → Option JStr

/-- `localStorage.setItem key v` as a functional update. -/
def setKey (st : Store) (key v : JStr) : Store :=
  fun k => if k = key then some v else st k

/-- The `lastActiveDate` storage key. -/
def lastActiveDateKey : JStr := ("lastActiveDate").toList

/-- The `streakCount` storage key. -/
def streakCountKey : JStr := ("streakCount").toList

/-- The `lastSession` storage key. -/
def lastSessionKey : JStr := ("lastSession").toList

/-- The literal `'0'` fallback of `localStorage.getItem('streakCount') || '0'`. -/
def zeroStr : JStr := ("0").toList

/-- JavaScript `a || d` on a nullable string: `null` and the empty string are
falsy and give the fallback. -/
def jsOrDefault (v : Option JStr) (d : JStr) : JStr :=
  match v with
  | none => d
  | some s => if s = [] then d else s

/-- Numeric value of a hexadecimal digit character. -/
def hexDigitVal (c : Char) : Nat :=
  if c.isDigit then c.toNat - 48
  else if 'a' ≤ c && c ≤ 'f' then c.toNat - 87
  else c.toNat - 55

/-- Whether a character is a hexadecimal digit. -/
def isHexDigit (c : Char) : Bool :=
  c.isDigit || ('a' ≤ c && c ≤ 'f') || ('A' ≤ c && c ≤ 'F')

/-- The unsigned part of JavaScript `parseInt` with no radix argument: a
`0x`/`0X` lead switches to base 16, otherwise the longest run of decimal
digits is taken; no digits at all gives `NaN` (`none`). -/
def parseNatPart (l : JStr) : Option Nat :=
  let hexRest : Option JStr :=
    match l with
    | '0' :: 'x' :: rest => some rest
    | '0' :: 'X' :: rest => some rest
    | _ => none
  match hexRest with
  | some rest =>
    let hs := rest.takeWhile isHexDigit
    if hs = [] then none
    else some (hs.foldl (fun a c => a * 16 + hexDigitVal c) 0)
  | none =>
    let ds := l.takeWhile Char.isDigit
    if ds = [] then none
    else some (ds.foldl (fun a c => a * 10 + (c.toNat - 48)) 0)

/-- JavaScript `parseInt(s)`: skip leading whitespace, read an optional
sign, then the unsigned part; `none` models `NaN`. -/
def jsParseInt (s : JStr) : Option Int :=
  let s1 := s.dropWhile isJsWhitespace
  match s1 with
  | '-' :: rest => (parseNatPart rest).map (fun n => -(n : Int))
  | '+' :: rest => (parseNatPart rest).map (fun n => (n : Int))
  | _ => (parseNatPart s1).map (fun n => (n : Int))

/-- `parseInt(s) || 0`: `NaN` (and `0` itself) collapse to `0`. -/
def jsParseIntOr0 (s : JStr) : Int :=
  (jsParseInt s).getD 0

/-- JavaScript `String(count)` for the integer streak counter. -/
def intToChars (n : Int) : JStr :=
  (toString n).toList

/-- The streak block of `handleSend` (unnamed main module, lines 172-185):
read `lastActiveDate` and `streakCount`, compute the new count by the
today/yesterday/otherwise cases, then write today's date and the new count
back. Returns the updated store and the count passed to `setStreak`. -/
def streakUpdate (todayStr yesterdayStr : JStr) (storage : Store) :
    Store × Int :=
  let last := storage lastActiveDateKey
  let count0 := jsParseIntOr0 (jsOrDefault (storage streakCountKey) zeroStr)
  let count : Int :=
    match last with
    | none => 1
    | some l =>
      if l = [] then 1
      else if l = todayStr then count0
      else if l = yesterdayStr then count0 + 1
      else 1
  (setKey (setKey storage lastActiveDateKey todayStr) streakCountKey
      (intToChars count),
    count)

/-- `JSON.stringify({ bookId, question, bookTitle })` as written for the
`lastSession` key (unnamed main module, line 190); quoting of embedded
quotes is not modelled. -/
def lastSessionJson (bookId question bookTitle : JStr) : JStr :=
  ("\x7b\"bookId\":\"").toList ++ bookId ++
  ("\",\"question\":\"").toList ++ question ++
  ("\",\"bookTitle\":\"").toList ++ bookTitle ++ ("\"\x7d").toList

/-- The fixed fallback text of the catch branch (App.tsx line 137). -/
def fallbackText : JStr :=
  ("Sorry, something went wrong while fetching the answer.").toList

/-- Outcome of the `/ask` transport as `handleSend` observes it:
`httpFail` covers a rejected fetch, a non-2xx status, or a missing body
(all reach the catch without reading anything); `stream chunks readFails`
delivers the decoded text chunks in order and then either ends normally or
throws out of `reader.read()`. -/
inductive Transport where
  | httpFail
  | stream (chunks : List JStr) (readFails : Bool)
deriving DecidableEq, Repr

/-- The text chunks that were delivered (hence parsed) before any failure. -/
def deliveredChunks : Transport → List JStr
  | Transport.httpFail => []
  | Transport.stream chunks _ => chunks

/-- Whether the transport path ends in the catch branch. -/
def transportFailed : Transport → Bool
  | Transport.httpFail => true
  | Transport.stream _ readFails => readFails

/-- Everything `handleSend` reads: component state, storage, the identifiers
and timestamps minted during the call, the computed date strings, and the
transport outcome. -/
structure SendEnv where
  overrideText : Option JStr
  query : JStr
  selected : Option Book
  books : List Book
  messages : List ChatMsg
  storage : Store
  userMsgId : JStr
  bookMsgId : JStr
  errMsgId : JStr
  now1 : Int
  now2 : Int
  now3 : Int
  todayStr : JStr
  yesterdayStr : JStr
  transport : Transport

/-- Everything `handleSend` writes: the final transcript, the final store,
the `/ask` request body it issued (if any), and the `setStreak` argument
(if reached). -/
structure SendResult where
  messages : List ChatMsg
  storage : Store
  request : Option (JStr × JStr)
  streakSet : Option Int

/-- The book the question is addressed to: `selected ?? books[0]` (unnamed
main module, line 197). -/
def whichBook (env : SendEnv) : Option Book :=
  match env.selected with
  | some b => some b
  | none => env.books.head?

/-- The `handleSend` flow of the unnamed main module (lines 164-251):
trim the question and bail out when empty; append the user message; run the
streak update; save the resume pointer when a book is available; bail out
when no book is available; append the empty open book message; then either
stream deltas into it or, on any transport failure, append a fresh book
message holding the fixed fallback text. -/
def handleSend (env : SendEnv) : SendResult :=
  let q := jsTrim (env.overrideText.getD env.query)
  if q = [] then
    { messages := env.messages, storage := env.storage, request := none,
      streakSet := none }
  else
    let userMsg : ChatMsg :=
      { id := env.userMsgId, role := Role.user, content := q, ts := env.now1 }
    let msgs1 := env.messages ++ [userMsg]
    let su := streakUpdate env.todayStr env.yesterdayStr env.storage
    let st2 := su.1
    let st3 :=
      match whichBook env with
      | some w => setKey st2 lastSessionKey (lastSessionJson w.id q w.title)
      | none => st2
    match whichBook env with
    | none =>
      { messages := msgs1, storage := st3, request := none,
        streakSet := some su.2 }
    | some w =>
      let initBook : ChatMsg :=
        { id := env.bookMsgId, role := Role.book, content := [],
          ts := env.now2 }
      let msgs2 := msgs1 ++ [initBook]
      match env.transport with
      | Transport.httpFail =>
        { messages := msgs2 ++
            [{ id := env.errMsgId, role := Role.book, content := fallbackText,
               ts := env.now3 }],
          storage := st3, request := some (w.id, q), streakSet := some su.2 }
      | Transport.stream chunks readFails =>
        let msgs3 := runStream env.bookMsgId msgs2 chunks
        if readFails then
          { messages := msgs3 ++
              [{ id := env.errMsgId, role := Role.book,
                 content := fallbackText, ts := env.now3 }],
            storage := st3, request := some (w.id, q),
            streakSet := some su.2 }
        else
          { messages := msgs3, storage := st3, request := some (w.id, q),
            streakSet := some su.2 }

/-- A sample catalog book used by the concrete test environments. -/
def book1 : Book :=
  { id := ("b1").toList, title := ("Atomic Habits").toList,
    author := ("James Clear").toList }

/-- An empty store used by the concrete test environments. -/
def emptyStore : Store := fun _ => none

/-- A concrete environment in which the transport delivers one delta-bearing
frame and then fails mid-read. -/
def failEnv : SendEnv :=
  { overrideText := none
    query := ("hi").toList
    selected := none
    books := [book1]
    messages := []
    storage := emptyStore
    userMsgId := ("u1").toList
    bookMsgId := ("m1").toList
    errMsgId := ("e1").toList
    now1 := 100
    now2 := 101
    now3 := 102
    todayStr := ("2026-10-11").toList
    yesterdayStr := ("2026-10-10").toList
    transport := Transport.stream [("data: Hi\n\n").toList] true }

/-- A sample two-frame stream text used as a concrete witness input. -/
def t3 : JStr := ("data: Hello\n\ndata: World\n\n").toList

/-- A sample `YYYY-MM-DD` date for the streak witness. -/
def today0 : JStr := ("2026-10-11").toList

/-- The day before `today0`. -/
def yest0 : JStr := ("2026-10-10").toList

/-- A store holding yesterday's date and a streak count of 3. -/
def streakStore : Store := fun k =>
  if k = lastActiveDateKey then some yest0
  else if k = streakCountKey then some (("3").toList)
  else none

/-- A concrete environment with an empty catalog and no selection. -/
def noBookEnv : SendEnv :=
  { overrideText := none
    query := ("hi").toList
    selected := none
    books := []
    messages := []
    storage := emptyStore
    userMsgId := ("u1").toList
    bookMsgId := ("m1").toList
    errMsgId := ("e1").toList
    now1 := 100
    now2 := 101
    now3 := 102
    todayStr := today0
    yesterdayStr := yest0
    transport := Transport.httpFail }

/-- A concrete environment whose question is whitespace only. -/
def wsEnv : SendEnv :=
  { overrideText := none
    query := ("   ").toList
    selected := none
    books := [book1]
    messages := []
    storage := emptyStore
    userMsgId := ("u1").toList
    bookMsgId := ("m1").toList
    errMsgId := ("e1").toList
    now1 := 100
    now2 := 101
    now3 := 102
    todayStr := today0
    yesterdayStr := yest0
    transport := Transport.httpFail }

/-- A one-message transcript used by the missing-id witness. -/
def msgs0 : List ChatMsg :=
  [{ id := ("u1").toList, role := Role.user, content := ("q").toList,
     ts := 1 }]

theorem extractFrames_cons₂ (c1 c2 : Char) (rest : JStr) :
    extractFrames (c1 :: c2 :: rest) =
      if c1 = '\n' && c2 = '\n' then
        (([] : JStr) :: (extractFrames rest).1, (extractFrames rest).2)
      else
        match (extractFrames (c2 :: rest)).1 with
        | [] => ([], c1 :: (extractFrames (c2 :: rest)).2)
        | f :: fs => ((c1 :: f) :: fs, (extractFrames (c2 :: rest)).2) := rfl

theorem extractFrames_nil_frames :
    ∀ l : JStr, (extractFrames l).1 = [] → (extractFrames l).2 = l := by
  intro l
  induction l using extractFrames.induct with
  | case1 => intro _; rfl
  | case2 c => intro _; rfl
  | case3 c1 c2 rest h ih =>
    intro hnil
    rw [extractFrames_cons₂, if_pos h] at hnil
    simp at hnil
  | case4 c1 c2 rest h p hp ih =>
    have hp' : (extractFrames (c2 :: rest)).1 = [] := hp
    rw [extractFrames_cons₂, if_neg h, hp']
    intro _
    show c1 :: (extractFrames (c2 :: rest)).2 = c1 :: c2 :: rest
    rw [ih hp']
  | case5 c1 c2 rest h p f fs hp ih =>
    have hp' : (extractFrames (c2 :: rest)).1 = f :: fs := hp
    rw [extractFrames_cons₂, if_neg h, hp']
    intro hnil
    simp at hnil

theorem extractFrames_leftover :
    ∀ l : JStr, (extractFrames (extractFrames l).2).1 = [] := by
  intro l
  induction l using extractFrames.induct with
  | case1 => rfl
  | case2 c => rfl
  | case3 c1 c2 rest h ih =>
    rw [extractFrames_cons₂, if_pos h]
    exact ih
  | case4 c1 c2 rest h p hp ih =>
    have hp' : (extractFrames (c2 :: rest)).1 = [] := hp
    have ha : extractFrames (c1 :: c2 :: rest) = ([], c1 :: c2 :: rest) := by
      rw [extractFrames_cons₂, if_neg h, hp']
      show ([], c1 :: (extractFrames (c2 :: rest)).2) = _
      rw [extractFrames_nil_frames _ hp']
    rw [ha, ha]
  | case5 c1 c2 rest h p f fs hp ih =>
    have hp' : (extractFrames (c2 :: rest)).1 = f :: fs := hp
    rw [extractFrames_cons₂, if_neg h, hp']
    exact ih

theorem extractFrames_append :
    ∀ a b : JStr,
      extractFrames (a ++ b) =
        ((extractFrames a).1 ++
            (extractFrames ((extractFrames a).2 ++ b)).1,
          (extractFrames ((extractFrames a).2 ++ b)).2) := by
  intro a
  induction a using extractFrames.induct with
  | case1 => intro b; rfl
  | case2 c => intro b; rfl
  | case3 c1 c2 rest h ih =>
    intro b
    have e1 : (c1 :: c2 :: rest) ++ b = c1 :: c2 :: (rest ++ b) := rfl
    rw [e1, extractFrames_cons₂ c1 c2 (rest ++ b), if_pos h, ih b,
        extractFrames_cons₂ c1 c2 rest, if_pos h]
    simp
  | case4 c1 c2 rest h p hp ih =>
    intro b
    have hp' : (extractFrames (c2 :: rest)).1 = [] := hp
    have ha : extractFrames (c1 :: c2 :: rest) = ([], c1 :: c2 :: rest) := by
      rw [extractFrames_cons₂, if_neg h, hp']
      show ([], c1 :: (extractFrames (c2 :: rest)).2) = _
      rw [extractFrames_nil_frames _ hp']
    rw [ha]
    simp
  | case5 c1 c2 rest h p f fs hp ih =>
    intro b
    have hp' : (extractFrames (c2 :: rest)).1 = f :: fs := hp
    have e1 : (c1 :: c2 :: rest) ++ b = c1 :: c2 :: (rest ++ b) := rfl
    have e2 : c2 :: (rest ++ b) = (c2 :: rest) ++ b := rfl
    rw [e1, extractFrames_cons₂ c1 c2 (rest ++ b), if_neg h, e2, ih b, hp']
    rw [extractFrames_cons₂ c1 c2 rest, if_neg h, hp']
    simp

theorem chunkFrames_foldl :
    ∀ (chunks : List JStr) (fs : List JStr) (b : JStr),
      (extractFrames b).1 = [] →
      chunks.foldl
          (fun st c =>
            let p := extractFrames (st.2 ++ c)
            (st.1 ++ p.1, p.2))
          (fs, b) =
        (fs ++ (extractFrames (b ++ chunks.flatten)).1,
          (extractFrames (b ++ chunks.flatten)).2) := by
  intro chunks
  induction chunks with
  | nil =>
    intro fs b hb
    simp [extractFrames_nil_frames _ hb, hb]
  | cons c cs ih =>
    intro fs b hb
    have hstep : extractFrames (b ++ (c :: cs).flatten) =
        ((extractFrames (b ++ c)).1 ++
            (extractFrames ((extractFrames (b ++ c)).2 ++ cs.flatten)).1,
          (extractFrames ((extractFrames (b ++ c)).2 ++ cs.flatten)).2) := by
      have : b ++ (c :: cs).flatten = (b ++ c) ++ cs.flatten := by simp
      rw [this, extractFrames_append]
    rw [List.foldl_cons]
    rw [ih ((fs ++ (extractFrames (b ++ c)).1)) ((extractFrames (b ++ c)).2)
        (extractFrames_leftover _)]
    rw [hstep]
    simp

theorem runStream_foldl :
    ∀ (chunks : List JStr) (mid : JStr) (ms : List ChatMsg) (b : JStr),
      (extractFrames b).1 = [] →
      chunks.foldl (fun st c => processBuffer mid st.1 (st.2 ++ c)) (ms, b) =
        ((extractFrames (b ++ chunks.flatten)).1.foldl (applyFrame mid) ms,
          (extractFrames (b ++ chunks.flatten)).2) := by
  intro chunks
  induction chunks with
  | nil =>
    intro mid ms b hb
    simp [extractFrames_nil_frames _ hb, hb]
  | cons c cs ih =>
    intro mid ms b hb
    have hstep : extractFrames (b ++ (c :: cs).flatten) =
        ((extractFrames (b ++ c)).1 ++
            (extractFrames ((extractFrames (b ++ c)).2 ++ cs.flatten)).1,
          (extractFrames ((extractFrames (b ++ c)).2 ++ cs.flatten)).2) := by
      have : b ++ (c :: cs).flatten = (b ++ c) ++ cs.flatten := by simp
      rw [this, extractFrames_append]
    rw [List.foldl_cons]
    show List.foldl _ (processBuffer mid ms (b ++ c)) cs = _
    rw [show processBuffer mid ms (b ++ c) =
        ((extractFrames (b ++ c)).1.foldl (applyFrame mid) ms,
          (extractFrames (b ++ c)).2) from rfl]
    rw [ih mid ((extractFrames (b ++ c)).1.foldl (applyFrame mid) ms)
        ((extractFrames (b ++ c)).2) (extractFrames_leftover _)]
    rw [hstep]
    simp [List.foldl_append]

theorem chunkFrames_eq_join (chunks : List JStr) :
    chunkFrames chunks = extractFrames chunks.flatten := by
  unfold chunkFrames
  rw [chunkFrames_foldl chunks [] [] rfl]
  simp

theorem chunkDeltas_eq_join (chunks : List JStr) :
    chunkDeltas chunks = (extractFrames chunks.flatten).1.filterMap frameDelta := by
  unfold chunkDeltas
  rw [chunkFrames_eq_join]

theorem runStream_eq_join (mid : JStr) (ms : List ChatMsg) (chunks : List JStr) :
    runStream mid ms chunks =
      (extractFrames chunks.flatten).1.foldl (applyFrame mid) ms := by
  unfold runStream
  rw [runStream_foldl chunks mid ms [] rfl]
  simp

theorem foldl_applyFrame (frames : List JStr) :
    ∀ (mid : JStr) (ms : List ChatMsg),
      frames.foldl (applyFrame mid) ms =
        (frames.filterMap frameDelta).foldl
          (fun a d => applyDelta a mid d) ms := by
  induction frames with
  | nil => intro mid ms; rfl
  | cons f fs ih =>
    intro mid ms
    cases h : frameDelta f with
    | none => simp [applyFrame, h, ih]
    | some d => simp [applyFrame, h, ih]

theorem foldl_applyDelta_last (ds : List JStr) :
    ∀ (xs : List ChatMsg) (m : ChatMsg) (mid : JStr),
      (∀ x ∈ xs, x.id ≠ mid) → m.id = mid →
      ds.foldl (fun a d => applyDelta a mid d) (xs ++ [m]) =
        xs ++ [{ m with content := m.content ++ ds.flatten }] := by
  induction ds with
  | nil =>
    intro xs m mid hxs hm
    simp
  | cons d ds ih =>
    intro xs m mid hxs hm
    have hstep : applyDelta (xs ++ [m]) mid d =
        xs ++ [{ m with content := m.content ++ d }] := by
      unfold applyDelta
      rw [List.map_append]
      congr 1
      · have hid : List.map
            (fun msg => if msg.id = mid then
              { msg with content := msg.content ++ d } else msg) xs =
            List.map id xs :=
          List.map_congr_left (fun x hx => by simp [hxs x hx])
        rw [hid, List.map_id]
      · simp [hm]
    rw [List.foldl_cons, hstep,
        ih xs { m with content := m.content ++ d } mid hxs hm]
    simp

theorem beginsWith_event_not_data (l : JStr)
    (h : beginsWith eventPfx l = true) : beginsWith dataPfx l = false := by
  cases l with
  | nil => exact absurd h (by decide)
  | cons c cs =>
    have he : eventPfx = 'e' :: ("vent:").toList := by decide
    have hd : dataPfx = 'd' :: ("ata:").toList := by decide
    rw [he] at h
    rw [hd]
    simp only [beginsWith, Bool.and_eq_true, decide_eq_true_eq] at h
    obtain ⟨hc, -⟩ := h
    subst hc
    simp [beginsWith]

theorem foldl_parseLine_data :
    ∀ (lines : List JStr) (ev : Option JStr) (ds : List JStr),
      (lines.foldl parseLine (ev, ds)).2 =
        ds ++ (lines.filter (fun l => beginsWith dataPfx l)).map
          stripDataValue := by
  intro lines
  induction lines with
  | nil => intro ev ds; simp
  | cons l ls ih =>
    intro ev ds
    by_cases h1 : beginsWith eventPfx l
    · have h2 := beginsWith_event_not_data l h1
      simp [parseLine, h1, h2, ih]
    · by_cases h2 : beginsWith dataPfx l
      · simp [parseLine, h1, h2, ih]
      · simp [parseLine, h1, h2, ih]

theorem filterMap_delta_flatten (fs : List JStr)
    (h : ∀ f ∈ fs, (parseFrame f).1 = none ∨ (parseFrame f).1 = some chunkEvt) :
    ((fs.filterMap frameDelta).flatten : JStr) =
      (fs.map (fun f => List.intercalate [chr10] (parseFrame f).2)).flatten := by
  induction fs with
  | nil => rfl
  | cons f fs ih =>
    have hf := h f (by simp)
    have hrest : ∀ g ∈ fs,
        (parseFrame g).1 = none ∨ (parseFrame g).1 = some chunkEvt :=
      fun g hg => h g (List.mem_cons_of_mem _ hg)
    by_cases hd : (parseFrame f).2 = []
    · have : frameDelta f = none := by
        unfold frameDelta
        simp [hd]
      have hi : ([chr10].intercalate ([] : List JStr) : JStr) = [] := rfl
      simp [this, hd, ih hrest, hi]
    · have : frameDelta f = some (List.intercalate [chr10] (parseFrame f).2) := by
        unfold frameDelta
        rw [if_pos ⟨hd, hf⟩]
      simp [this, ih hrest]

/-- C2: splitting an input text stream into chunks at arbitrary boundaries
(including mid-frame, mid-line, or exactly on the `"\n\n"` delimiter) and
feeding the chunks to the SSE parse loop one at a time yields the same
sequence of forwarded deltas — and the same final transcript — as feeding
the entire text as one single chunk: the buffer carries any trailing
partial frame across chunk boundaries. -/
theorem sse_chunk_boundary_independent :
    ∀ chunks : List JStr,
      chunkDeltas chunks = chunkDeltas [chunks.flatten] ∧
      ∀ (mid : JStr) (ms : List ChatMsg),
        runStream mid ms chunks = runStream mid ms [chunks.flatten] := by
  intro chunks
  constructor
  · rw [chunkDeltas_eq_join, chunkDeltas_eq_join]
    simp
  · intro mid ms
    rw [runStream_eq_join, runStream_eq_join]
    simp

/-- C3: for a stream whose full text contains only frames that either have
no event line or have event type `"chunk"`, the concatenation of all
forwarded deltas equals the concatenation over all complete frames of that
frame's data-line remainders joined with a single `"\n"` within the frame,
with no separator between frames (no data is lost or duplicated), for any
chunking of the stream text. -/
theorem chunk_stream_reconstructs_data (chunks : List JStr)
    (h : ∀ f ∈ (extractFrames chunks.flatten).1,
      (parseFrame f).1 = none ∨ (parseFrame f).1 = some chunkEvt) :
    (chunkDeltas chunks).flatten =
      ((extractFrames chunks.flatten).1.map
        (fun f => List.intercalate [chr10] (parseFrame f).2)).flatten := by
  rw [chunkDeltas_eq_join]
  exact filterMap_delta_flatten _ h

/-- C5: a parsed frame forwards its delta if and only if it has at least
one data line and its event type is absent or equals the literal string
`"chunk"`; in particular a frame `event: ping` / `data: x` contributes no
delta, and a frame with zero data lines contributes no delta. -/
theorem frame_forward_guard :
    (∀ f : JStr,
      (frameDelta f).isSome = true ↔
        ((parseFrame f).2 ≠ [] ∧
          ((parseFrame f).1 = none ∨ (parseFrame f).1 = some chunkEvt))) ∧
    frameDelta (("event: ping\ndata: x").toList) = none ∧
    frameDelta (("event: chunk").toList) = none := by
  refine ⟨?_, by decide, by decide⟩
  intro f
  unfold frameDelta
  by_cases h : (parseFrame f).2 ≠ [] ∧
      ((parseFrame f).1 = none ∨ (parseFrame f).1 = some chunkEvt)
  · rw [if_pos h]
    simp [h]
  · rw [if_neg h]
    simp [h]

/-- C6 (amended): for every line of a frame beginning with `data:`, the
value recorded is the remainder of the line after removing the prefix
`data:` and at most one immediately following whitespace character — with
no further trimming — and the recorded data lines preserve the order in
which the lines occur in the frame. -/
theorem data_lines_in_order (frame : JStr) :
    (parseFrame frame).2 =
      ((splitLines frame).filter (fun l => beginsWith dataPfx l)).map
        stripDataValue := by
  unfold parseFrame
  simpa using foldl_parseLine_data (splitLines frame) none []

/-- C6 (counterexample): for the line `"data:x "` the recorded value is
`"x "` (the `\s?` of the replace pattern eats at most one leading
whitespace character and nothing is trimmed), while the trimmed remainder
after the `data:` prefix would be `"x"`; the two differ, refuting the
claim that the recorded value is the trimmed remainder. -/
theorem data_line_value_not_trimmed :
    (parseFrame (("data:x ").toList)).2 = [("x ").toList] ∧
    jsTrim (List.drop dataPfx.length (("data:x ").toList)) = ("x").toList ∧
    (("x ").toList : JStr) ≠ ("x").toList := by decide

/-- C8: applying a delta to a message id that is not present in the
message list is a silent no-op: the list is returned unchanged, no error is
raised, and no message is created. -/
theorem append_delta_missing_id_noop (ms : List ChatMsg) (mid delta : JStr)
    (h : ∀ m ∈ ms, m.id ≠ mid) : applyDelta ms mid delta = ms := by
  unfold applyDelta
  have hid : List.map
      (fun msg => if msg.id = mid then
        { msg with content := msg.content ++ delta } else msg) ms =
      List.map id ms :=
    List.map_congr_left (fun x hx => by simp [h x hx])
  rw [hid, List.map_id]

/-- C10: a delta application changes only the content of messages whose
id matches the open book message's id: the list length is preserved, every
position keeps its message's id, role and timestamp, non-matching messages
are returned unchanged, and relative order is preserved (the update is a
pointwise map). -/
theorem delta_application_frame_effect (ms : List ChatMsg) (mid delta : JStr) :
    (applyDelta ms mid delta).length = ms.length ∧
    ∀ i : Nat,
      (applyDelta ms mid delta)[i]? =
        (ms[i]?).map (fun m =>
          if m.id = mid then
            { id := m.id, role := m.role, content := m.content ++ delta,
              ts := m.ts }
          else m) := by
  constructor
  · simp [applyDelta]
  · intro i
    simp [applyDelta]

theorem setKey_same (st : Store) (k v : JStr) : setKey st k v k = some v := by
  unfold setKey
  rw [if_pos rfl]

theorem setKey_other (st : Store) (k v k2 : JStr) (h : ¬(k2 = k)) :
    setKey st k v k2 = st k2 := by
  unfold setKey
  rw [if_neg h]

/-- C4: the streak update of a send action satisfies the transition
table: if the stored `lastActiveDate` equals today's date the count is
unchanged; if it equals yesterday's date the count increments by 1;
otherwise (absent or anything else) the count resets to 1; afterwards
`lastActiveDate` holds today's date and `streakCount` the new count. -/
theorem streak_transition_table (todayStr yesterdayStr : JStr)
    (storage : Store) (hT : todayStr ≠ []) (hY : yesterdayStr ≠ [])
    (hTY : todayStr ≠ yesterdayStr) :
    (streakUpdate todayStr yesterdayStr storage).1 lastActiveDateKey =
      some todayStr ∧
    (streakUpdate todayStr yesterdayStr storage).1 streakCountKey =
      some (intToChars (streakUpdate todayStr yesterdayStr storage).2) ∧
    (storage lastActiveDateKey = some todayStr →
      (streakUpdate todayStr yesterdayStr storage).2 =
        jsParseIntOr0 (jsOrDefault (storage streakCountKey) zeroStr)) ∧
    (storage lastActiveDateKey = some yesterdayStr →
      (streakUpdate todayStr yesterdayStr storage).2 =
        jsParseIntOr0 (jsOrDefault (storage streakCountKey) zeroStr) + 1) ∧
    ((storage lastActiveDateKey = none ∨
        (∀ l, storage lastActiveDateKey = some l →
          l ≠ todayStr ∧ l ≠ yesterdayStr)) →
      (streakUpdate todayStr yesterdayStr storage).2 = 1) := by
  have hcount : (streakUpdate todayStr yesterdayStr storage).2 =
      (match storage lastActiveDateKey with
        | none => (1 : Int)
        | some l =>
          if l = [] then (1 : Int)
          else if l = todayStr then
            jsParseIntOr0 (jsOrDefault (storage streakCountKey) zeroStr)
          else if l = yesterdayStr then
            jsParseIntOr0 (jsOrDefault (storage streakCountKey) zeroStr) + 1
          else 1) := rfl
  have hst : (streakUpdate todayStr yesterdayStr storage).1 =
      setKey (setKey storage lastActiveDateKey todayStr) streakCountKey
        (intToChars (streakUpdate todayStr yesterdayStr storage).2) := rfl
  refine ⟨?_, ?_, ?_, ?_, ?_⟩
  · rw [hst, setKey_other _ _ _ _ (by decide), setKey_same]
  · rw [hst, setKey_same]
  · intro hlast
    rw [hcount, hlast]
    simp [hT]
  · intro hlast
    rw [hcount, hlast]
    have h1 : ¬(yesterdayStr = todayStr) := fun e => hTY e.symm
    simp [hY, h1]
  · intro hlast
    rw [hcount]
    cases hl : storage lastActiveDateKey with
    | none => rfl
    | some l =>
      rcases hlast with hnone | hother
      · rw [hl] at hnone; cases hnone
      · obtain ⟨hlt, hly⟩ := hother l hl
        by_cases hle : l = []
        · simp [hle]
        · simp [hle, hlt, hly]

/-- C9: calling `handleSend` with a question that is empty or whitespace
only is a complete no-op: no message is appended, no request is issued, the
persisted store is untouched, and the streak is not updated. -/
theorem whitespace_question_noop (env : SendEnv)
    (hq : jsTrim (env.overrideText.getD env.query) = []) :
    (handleSend env).messages = env.messages ∧
    (handleSend env).storage = env.storage ∧
    (handleSend env).request = none ∧
    (handleSend env).streakSet = none := by
  unfold handleSend
  rw [if_pos hq]
  exact ⟨rfl, rfl, rfl, rfl⟩

/-- C7: with an empty catalog and no selected book, sending a non-empty
question appends the user message and returns without issuing any ask
request; the `books[0]` fallback is guarded, so the null-book branch is
never reached (the embedding is total, so no exception is possible). -/
theorem empty_catalog_send_safe (env : SendEnv)
    (hb : env.books = []) (hs : env.selected = none)
    (hq : ¬(jsTrim (env.overrideText.getD env.query) = [])) :
    (handleSend env).request = none ∧
    (handleSend env).messages =
      env.messages ++
        [{ id := env.userMsgId, role := Role.user,
           content := jsTrim (env.overrideText.getD env.query),
           ts := env.now1 }] := by
  have hwhich : whichBook env = none := by
    unfold whichBook
    rw [hs, hb]
    rfl
  unfold handleSend
  rw [if_neg hq, hwhich]
  exact ⟨rfl, rfl⟩

/-- C1 (amended): when the ask transport fails — before any read or
after zero or more delivered chunks — `handleSend` leaves the open book
message holding exactly the concatenation of the deltas forwarded before
the failure (possibly empty) and appends a separate, new book-role message
whose content is exactly the fixed fallback string; no message mixes
partial streamed content with the fallback. -/
theorem transport_failure_fallback (env : SendEnv) (w : Book)
    (hw : whichBook env = some w)
    (hq : ¬(jsTrim (env.overrideText.getD env.query) = []))
    (hfail : transportFailed env.transport = true)
    (hfresh : ∀ m ∈ env.messages, m.id ≠ env.bookMsgId)
    (hids : ¬(env.userMsgId = env.bookMsgId)) :
    (handleSend env).messages =
      env.messages ++
        [{ id := env.userMsgId, role := Role.user,
           content := jsTrim (env.overrideText.getD env.query),
           ts := env.now1 },
         { id := env.bookMsgId, role := Role.book,
           content := (chunkDeltas (deliveredChunks env.transport)).flatten,
           ts := env.now2 },
         { id := env.errMsgId, role := Role.book, content := fallbackText,
           ts := env.now3 }] := by
  unfold handleSend
  rw [if_neg hq, hw]
  cases htr : env.transport with
  | httpFail =>
    have hc : (chunkDeltas (deliveredChunks Transport.httpFail)).flatten =
        ([] : JStr) := rfl
    rw [hc]
    simp
  | stream chunks readFails =>
    rw [htr] at hfail
    have hrf : readFails = true := hfail
    subst hrf
    have hc : deliveredChunks (Transport.stream chunks true) = chunks := rfl
    rw [hc]
    dsimp only
    rw [runStream_eq_join, foldl_applyFrame, ← chunkDeltas_eq_join]
    have hx : ∀ x ∈ env.messages ++
        [({ id := env.userMsgId, role := Role.user,
            content := jsTrim (env.overrideText.getD env.query),
            ts := env.now1 } : ChatMsg)], x.id ≠ env.bookMsgId := by
      intro x hx
      rcases List.mem_append.mp hx with hmem | hmem
      · exact hfresh x hmem
      · simp only [List.mem_singleton] at hmem
        subst hmem
        exact hids
    rw [foldl_applyDelta_last _ _ _ _ hx rfl]
    simp

/-- C1 (counterexample): in `failEnv` the transport delivers the frame
`"data: Hi\n\n"` and then fails; afterwards the open book message's final
content is `"Hi"`, not the fixed fallback string (the fallback lives in a
separate, newly created message), refuting the claim as stated. -/
theorem open_message_not_fallback_cex :
    ((handleSend failEnv).messages.filter
        (fun m => m.id = failEnv.bookMsgId)).map ChatMsg.content =
      [("Hi").toList] ∧
    ¬(("Hi").toList = fallbackText) := by decide

/-- Witness for C1 (amended) at the concrete environment `failEnv`. -/
theorem transport_failure_fallback_witness :
    (handleSend failEnv).messages =
      failEnv.messages ++
        [{ id := failEnv.userMsgId, role := Role.user,
           content := jsTrim (failEnv.overrideText.getD failEnv.query),
           ts := failEnv.now1 },
         { id := failEnv.bookMsgId, role := Role.book,
           content := (chunkDeltas (deliveredChunks failEnv.transport)).flatten,
           ts := failEnv.now2 },
         { id := failEnv.errMsgId, role := Role.book, content := fallbackText,
           ts := failEnv.now3 }] :=
  transport_failure_fallback failEnv book1 (by decide) (by decide) (by decide)
    (by decide) (by decide)

/-- Witness for C3 at the concrete stream text `t3`. -/
theorem chunk_stream_reconstructs_data_witness :
    (chunkDeltas [t3]).flatten =
      ((extractFrames ([t3] : List JStr).flatten).1.map
        (fun f => List.intercalate [chr10] (parseFrame f).2)).flatten :=
  chunk_stream_reconstructs_data [t3] (by decide)

/-- Witness for C4 at a concrete store holding yesterday's date. -/
theorem streak_transition_table_witness :
    (streakUpdate today0 yest0 streakStore).1 lastActiveDateKey =
      some today0 ∧
    (streakUpdate today0 yest0 streakStore).1 streakCountKey =
      some (intToChars (streakUpdate today0 yest0 streakStore).2) ∧
    (streakStore lastActiveDateKey = some today0 →
      (streakUpdate today0 yest0 streakStore).2 =
        jsParseIntOr0 (jsOrDefault (streakStore streakCountKey) zeroStr)) ∧
    (streakStore lastActiveDateKey = some yest0 →
      (streakUpdate today0 yest0 streakStore).2 =
        jsParseIntOr0 (jsOrDefault (streakStore streakCountKey) zeroStr) + 1) ∧
    ((streakStore lastActiveDateKey = none ∨
        (∀ l, streakStore lastActiveDateKey = some l →
          l ≠ today0 ∧ l ≠ yest0)) →
      (streakUpdate today0 yest0 streakStore).2 = 1) :=
  streak_transition_table today0 yest0 streakStore (by decide) (by decide)
    (by decide)

/-- Witness for C7 at the concrete environment `noBookEnv`. -/
theorem empty_catalog_send_safe_witness :
    (handleSend noBookEnv).request = none ∧
    (handleSend noBookEnv).messages =
      noBookEnv.messages ++
        [{ id := noBookEnv.userMsgId, role := Role.user,
           content := jsTrim (noBookEnv.overrideText.getD noBookEnv.query),
           ts := noBookEnv.now1 }] :=
  empty_catalog_send_safe noBookEnv rfl rfl (by decide)

/-- Witness for C8 at a concrete transcript and missing id. -/
theorem append_delta_missing_id_noop_witness :
    applyDelta msgs0 (("zz").toList) (("d").toList) = msgs0 :=
  append_delta_missing_id_noop msgs0 (("zz").toList) (("d").toList)
    (by decide)

/-- Witness for C9 at the concrete environment `wsEnv`. -/
theorem whitespace_question_noop_witness :
    (handleSend wsEnv).messages = wsEnv.messages ∧
    (handleSend wsEnv).storage = wsEnv.storage ∧
    (handleSend wsEnv).request = none ∧
    (handleSend wsEnv).streakSet = none :=
  whitespace_question_noop wsEnv (by decide)
